import Mathlib

/-!
Verification development for the rustyzip repository.

The repository's relevant code lives in src/src/rustyzip_lib/gzip.rs,
src/src/rustyzip_lib/deflate.rs and src/src/libextra/zip.rs.  Bytes are
modelled as `Nat`; the Rust code masks with `& 0xFF` or casts to `u8`
wherever byte width matters, and the embedding mirrors those masks.
Byte buffers are modelled as `List Nat`; reading from a `Reader` is
modelled by consuming a prefix of a list (or, where the termination
behaviour of the read loop itself is under study, by a response stream
`Nat → Option Nat`).

The DEFLATE engine itself (`tdefl_compress` / `tinfl_decompress`) is C
code from the miniz package linked through FFI; it is not part of the
repository sources.  Where a claim depends on it, the engine is modelled
from the spec as an abstract function or step machine (see the
`Modelled from the spec:` doc comments).
-/

namespace RustyZip

/-! ## Byte packing (gzip.rs lines 599-614, zip.rs lines 679-707) -/

/-- `pack_u32_le` from gzip.rs/zip.rs: write a u32 into 4 little-endian
bytes (`(value >> k) as u8` is modelled as `value >>> k % 256`).  The
source writes into a buffer at an offset; the model returns the 4 bytes. -/
def pack_u32_le (value : Nat) : List Nat :=
  [value >>> 0 % 256, value >>> 8 % 256, value >>> 16 % 256, value >>> 24 % 256]

/-- `unpack_u32_le` from gzip.rs/zip.rs: read a little-endian u32 at
`offset`, masking every byte with `0xFF` exactly as the source does. -/
def unpack_u32_le (buf : List Nat) (offset : Nat) : Nat :=
  (buf.getD (offset + 0) 0 &&& 0xFF) |||
  ((buf.getD (offset + 1) 0 &&& 0xFF) <<< 8) |||
  ((buf.getD (offset + 2) 0 &&& 0xFF) <<< 16) |||
  ((buf.getD (offset + 3) 0 &&& 0xFF) <<< 24)

/-- `pack_u16_le` from zip.rs (also the layout written by
`write_le_u16_` in gzip.rs). -/
def pack_u16_le (value : Nat) : List Nat :=
  [value >>> 0 % 256, value >>> 8 % 256]

/-- `unpack_u16_le` from zip.rs (also the layout read by
`read_le_u16_` in gzip.rs). -/
def unpack_u16_le (buf : List Nat) (offset : Nat) : Nat :=
  (buf.getD (offset + 0) 0 &&& 0xFF) |||
  ((buf.getD (offset + 1) 0 &&& 0xFF) <<< 8)

/-! ### Arithmetic facts about the packing helpers -/

lemma lor_shiftLeft_eq_add {a : Nat} (b k : Nat) (h : a < 2 ^ k) :
    a ||| b <<< k = 2 ^ k * b + a := by
  apply Nat.eq_of_testBit_eq
  intro i
  rw [Nat.testBit_mul_pow_two_add b h i, Nat.testBit_lor, Nat.testBit_shiftLeft]
  by_cases hik : i < k
  · have : ¬ (i ≥ k) := by omega
    simp [hik, this]
  · have hik' : i ≥ k := by omega
    have ha : a.testBit i = false := by
      apply Nat.testBit_lt_two_pow
      exact lt_of_lt_of_le h (Nat.pow_le_pow_right (by norm_num) hik')
    simp [hik, hik', ha]

lemma byte_and_mask (x : Nat) : x &&& 0xFF = x % 256 := by
  have : (0xFF : Nat) = 2 ^ 8 - 1 := by norm_num
  rw [this, Nat.and_pow_two_sub_one_eq_mod]

lemma unpack_u32_le_cons (a b c d : Nat) (r : List Nat)
    (ha : a < 256) (hb : b < 256) (hc : c < 256) (hd : d < 256) :
    unpack_u32_le (a :: b :: c :: d :: r) 0 =
      a + 256 * b + 65536 * c + 16777216 * d := by
  show (a &&& 0xFF) ||| ((b &&& 0xFF) <<< 8) ||| ((c &&& 0xFF) <<< 16) |||
      ((d &&& 0xFF) <<< 24) = a + 256 * b + 65536 * c + 16777216 * d
  rw [byte_and_mask a, byte_and_mask b, byte_and_mask c, byte_and_mask d,
      Nat.mod_eq_of_lt ha, Nat.mod_eq_of_lt hb, Nat.mod_eq_of_lt hc,
      Nat.mod_eq_of_lt hd]
  rw [lor_shiftLeft_eq_add b 8 (by omega)]
  rw [lor_shiftLeft_eq_add c 16 (by norm_num; omega)]
  rw [lor_shiftLeft_eq_add d 24 (by norm_num; omega)]
  ring

lemma unpack_u16_le_cons (a b : Nat) (r : List Nat)
    (ha : a < 256) (hb : b < 256) :
    unpack_u16_le (a :: b :: r) 0 = a + 256 * b := by
  show (a &&& 0xFF) ||| ((b &&& 0xFF) <<< 8) = a + 256 * b
  rw [byte_and_mask a, byte_and_mask b, Nat.mod_eq_of_lt ha, Nat.mod_eq_of_lt hb]
  rw [lor_shiftLeft_eq_add b 8 (by omega)]
  ring

lemma pack_u32_le_bytes_lt (v : Nat) : ∀ x ∈ pack_u32_le v, x < 256 := by
  intro x hx
  simp [pack_u32_le] at hx
  rcases hx with h | h | h | h <;> subst h <;> exact Nat.mod_lt _ (by norm_num)

lemma pack_u32_le_length (v : Nat) : (pack_u32_le v).length = 4 := rfl

lemma unpack_pack_u32 (v : Nat) (r : List Nat) :
    unpack_u32_le (pack_u32_le v ++ r) 0 = v % 2 ^ 32 := by
  show unpack_u32_le ((v >>> 0 % 256) :: (v >>> 8 % 256) :: (v >>> 16 % 256) ::
      (v >>> 24 % 256) :: r) 0 = v % 2 ^ 32
  rw [unpack_u32_le_cons _ _ _ _ r (Nat.mod_lt _ (by norm_num))
    (Nat.mod_lt _ (by norm_num)) (Nat.mod_lt _ (by norm_num))
    (Nat.mod_lt _ (by norm_num))]
  rw [Nat.shiftRight_eq_div_pow, Nat.shiftRight_eq_div_pow,
      Nat.shiftRight_eq_div_pow, Nat.shiftRight_eq_div_pow]
  norm_num
  omega

lemma unpack_pack_u16 (v : Nat) (r : List Nat) :
    unpack_u16_le (pack_u16_le v ++ r) 0 = v % 2 ^ 16 := by
  show unpack_u16_le ((v >>> 0 % 256) :: (v >>> 8 % 256) :: r) 0 = v % 2 ^ 16
  rw [unpack_u16_le_cons _ _ r (Nat.mod_lt _ (by norm_num))
    (Nat.mod_lt _ (by norm_num))]
  rw [Nat.shiftRight_eq_div_pow, Nat.shiftRight_eq_div_pow]
  norm_num
  omega

/-! ## CRC-32 (gzip.rs lines 653-734) -/

namespace Gzip

/-- One pass of the inner `for _ in range(0, 8)` loop of `make_crc_table`;
`crc_byte_iter k c` applies it `k` times. -/
def crc_byte_iter : Nat → Nat → Nat
  | 0, c => c
  | k + 1, c =>
    crc_byte_iter k (if c &&& 1 == 1 then 0xedb88320 ^^^ (c >>> 1) else c >>> 1)

/-- `make_crc_table` from gzip.rs: the 256-entry CRC table generated from
the reversed polynomial 0xEDB88320. -/
def make_crc_table : List Nat :=
  (List.range 256).map (fun n => crc_byte_iter 8 n)

/-- The `crc_table` static of gzip.rs is the generated output of
`make_crc_table` pasted into the source; we define it as the generator. -/
def crc_table : List Nat := make_crc_table

/-- The loop body of `update_crc`, folded over the processed bytes. -/
def update_crc_loop (crc : Nat) (bytes : List Nat) : Nat :=
  bytes.foldl (fun c b => crc_table.getD ((c ^^^ b) &&& 0xff) 0 ^^^ (c >>> 8)) crc

/-- `update_crc` from gzip.rs: pre one's complement, table-driven update
over `buf[frm..upto]`, post one's complement. -/
def update_crc (crc : Nat) (buf : List Nat) (frm upto : Nat) : Nat :=
  update_crc_loop (crc ^^^ 0xFFFFFFFF) ((buf.drop frm).take (upto - frm)) ^^^ 0xFFFFFFFF

/-- `compute_crc` from gzip.rs: seed the CRC with 0. -/
def compute_crc (buf : List Nat) (frm upto : Nat) : Nat :=
  update_crc 0 buf frm upto

set_option maxRecDepth 8192 in
lemma crc_table_all_lt : crc_table.all (fun x => decide (x < 2 ^ 32)) = true := by
  decide

lemma crc_table_getD_lt (i : Nat) : crc_table.getD i 0 < 2 ^ 32 := by
  by_cases h : i < crc_table.length
  · have := List.all_eq_true.mp crc_table_all_lt (crc_table.getD i 0) ?_
    · exact of_decide_eq_true this
    · rw [List.getD_eq_getElem?_getD, List.getElem?_eq_getElem h]
      exact List.getElem_mem _
  · rw [List.getD_eq_getElem?_getD, List.getElem?_eq_none (by omega)]
    norm_num

lemma update_crc_loop_lt (bytes : List Nat) (crc : Nat) (h : crc < 2 ^ 32) :
    update_crc_loop crc bytes < 2 ^ 32 := by
  induction bytes generalizing crc with
  | nil => exact h
  | cons b rest ih =>
    apply ih
    apply Nat.xor_lt_two_pow (crc_table_getD_lt _)
    rw [Nat.shiftRight_eq_div_pow]
    exact lt_of_le_of_lt (Nat.div_le_self _ _) h

lemma update_crc_lt (crc : Nat) (buf : List Nat) (frm upto : Nat)
    (h : crc < 2 ^ 32) : update_crc crc buf frm upto < 2 ^ 32 := by
  apply Nat.xor_lt_two_pow _ (by norm_num)
  exact update_crc_loop_lt _ _ (Nat.xor_lt_two_pow h (by norm_num))

/-! ## GZip header constants and structure (gzip.rs lines 31-147) -/

def MIN_SIZE_FACTOR : Nat := 5
def DEFAULT_SIZE_FACTOR : Nat := 8
def HEADER_FIXED_LEN : Nat := 10
def MAGIC1 : Nat := 0x1f
def MAGIC2 : Nat := 0x8b
def METHOD_DEFLATE : Nat := 8
def FTEXT : Nat := 1
def FHCRC : Nat := 2
def FEXTRA : Nat := 4
def FNAME : Nat := 8
def FCOMMENT : Nat := 16
def END_LENGTH : Nat := 8

/-- The `GZip` struct of gzip.rs.  Strings (`~str`) are modelled as byte
lists. -/
structure GZip where
  id1 : Nat
  id2 : Nat
  compression : Nat
  flags : Nat
  mtime : Nat
  xflags : Nat
  os : Nat
  xfield_len : Option Nat
  xfield : Option (List Nat)
  filename : Option (List Nat)
  comment : Option (List Nat)
  header_crc : Option Nat
  crc32 : Nat
  original_size : Nat
  cmp_crc32 : Nat
  deriving Repr, DecidableEq

/-- `GZip::new` from gzip.rs. -/
def GZip.new : GZip :=
  { id1 := MAGIC1, id2 := MAGIC2, compression := METHOD_DEFLATE, flags := 0,
    mtime := 0, xflags := 0, os := 0, xfield_len := none, xfield := none,
    filename := none, comment := none, header_crc := none, crc32 := 0,
    original_size := 0, cmp_crc32 := 0 }

/-- `to_strz` from gzip.rs: append a terminating zero byte. -/
def to_strz (str_value : List Nat) : List Nat :=
  str_value ++ [0]

/-- `read_strz` from gzip.rs: consume bytes until a zero byte (dropped) or
end of input; return the bytes read and the remaining input. -/
def read_strz : List Nat → List Nat × List Nat
  | [] => ([], [])
  | b :: rest =>
    if b = 0 then ([], rest)
    else
      let (s, r) := read_strz rest
      (b :: s, r)

lemma read_strz_append (name : List Nat) (h : ∀ b ∈ name, b ≠ 0) (rest : List Nat) :
    read_strz (name ++ 0 :: rest) = (name, rest) := by
  induction name with
  | nil => simp [read_strz]
  | cons b tl ih =>
    have hb : b ≠ 0 := h b (by simp)
    have ih' := ih (fun x hx => h x (by simp [hx]))
    simp only [List.cons_append, read_strz, hb, if_false, ite_false, List.append_eq, ih']

/-- `GZip::writeHeader` from gzip.rs: the 10 fixed header bytes. -/
def GZip.writeHeader (g : GZip) : List Nat :=
  [g.id1, g.id2, g.compression, g.flags] ++ pack_u32_le g.mtime ++ [g.xflags, g.os]

/-- `GZip::writeHeaderExtra` from gzip.rs: the optional sections, written
in the order FEXTRA, FNAME, FCOMMENT, FHCRC as driven by the flag bits. -/
def GZip.writeHeaderExtra (g : GZip) : List Nat :=
  (if g.flags &&& FEXTRA = FEXTRA then
    pack_u16_le (g.xfield_len.getD 0) ++ g.xfield.getD [] else []) ++
  (if g.flags &&& FNAME = FNAME then to_strz (g.filename.getD []) else []) ++
  (if g.flags &&& FCOMMENT = FCOMMENT then to_strz (g.comment.getD []) else []) ++
  (if g.flags &&& FHCRC = FHCRC then pack_u16_le (g.header_crc.getD 0) else [])

/-- `GZip::compress_init` from gzip.rs: build the GZip state (filename and
FNAME flag only when `file_name` is non-empty, `original_size` taken from
the `file_size` argument) and emit the header bytes. -/
def GZip.compress_init (file_name : List Nat) (mtime file_size : Nat) :
    GZip × List Nat :=
  let g : GZip :=
    { GZip.new with
        mtime := mtime,
        filename := if file_name.length > 0 then some file_name else none,
        flags := if (if file_name.length > 0 then some file_name else none).isSome
                 then FNAME else 0,
        original_size := file_size }
  (g, g.writeHeader ++ g.writeHeaderExtra)

/-- `GZip::writeEndSection` from gzip.rs: 4 bytes CRC-32 then 4 bytes
ISIZE, both little-endian.  Note the source writes `self.original_size`,
the value passed to `compress_init`. -/
def GZip.writeEndSection (g : GZip) : List Nat :=
  pack_u32_le g.crc32 ++ pack_u32_le g.original_size

/-- `GZip::readHeader` from gzip.rs: read the fixed 10 bytes (error when
fewer are available), populate the fields, then validate the signature
bytes and the compression method. -/
def GZip.readHeader (input : List Nat) : Except String (GZip × List Nat) :=
  if input.length < HEADER_FIXED_LEN then
    .error "Too few data to be a valid gzip format."
  else
    let buf := input.take HEADER_FIXED_LEN
    let g : GZip :=
      { GZip.new with
          id1 := buf.getD 0 0, id2 := buf.getD 1 0,
          compression := buf.getD 2 0, flags := buf.getD 3 0,
          mtime := unpack_u32_le buf 4,
          xflags := buf.getD 8 0, os := buf.getD 9 0 }
    if g.id1 ≠ MAGIC1 ∨ g.id2 ≠ MAGIC2 then
      .error "Invalid gzip signature"
    else if g.compression ≠ METHOD_DEFLATE then
      .error "Unsupported compression method"
    else
      .ok (g, input.drop HEADER_FIXED_LEN)

/-- The std `read_le_u16_` used by gzip.rs: two little-endian bytes. -/
def read_le_u16 (input : List Nat) : Nat × List Nat :=
  (unpack_u16_le (input.take 2) 0, input.drop 2)

/-- `GZip::readHeaderExtra` from gzip.rs: read the optional sections in
the order FEXTRA (2-byte length then payload), FNAME (zero-terminated),
FCOMMENT (zero-terminated), FHCRC (2 bytes), as driven by the flag bits.
The source function always returns `Ok`; short reads merely truncate. -/
def GZip.readHeaderExtra (g : GZip) (input : List Nat) : GZip × List Nat :=
  let (g, input) :=
    if g.flags &&& FEXTRA = FEXTRA then
      let (xf_len, input) := read_le_u16 input
      ({ g with xfield_len := some xf_len, xfield := some (input.take xf_len) },
       input.drop xf_len)
    else (g, input)
  let (g, input) :=
    if g.flags &&& FNAME = FNAME then
      let (s, input) := read_strz input
      ({ g with filename := some s }, input)
    else (g, input)
  let (g, input) :=
    if g.flags &&& FCOMMENT = FCOMMENT then
      let (s, input) := read_strz input
      ({ g with comment := some s }, input)
    else (g, input)
  if g.flags &&& FHCRC = FHCRC then
    let (crc, input) := read_le_u16 input
    ({ g with header_crc := some crc }, input)
  else (g, input)

/-- `GZip::readEndSection` from gzip.rs: needs at least 8 bytes, then
parses the stored CRC-32 and ISIZE. -/
def GZip.readEndSection (g : GZip) (end_buf : List Nat) (end_len : Nat) :
    Except String GZip :=
  if end_len < END_LENGTH then
    .error "Not enough data in gzip end section."
  else
    .ok { g with crc32 := unpack_u32_le end_buf 0,
                 original_size := unpack_u32_le end_buf 4 }

/-- `GZip::checkCrc` from gzip.rs: compare the stored CRC against the one
computed over the decompressed data. -/
def GZip.checkCrc (g : GZip) : Except String Unit :=
  if g.crc32 ≠ g.cmp_crc32 then
    .error "The computed CRC of the decompressed data does not match the stored CRC in the file."
  else .ok ()

/-! ## GZip compress / decompress pipes (gzip.rs lines 150-319)

The DEFLATE engine driven by `Deflator::compress_pipe` and
`Inflator::decompress_pipe` is the native miniz code reached through FFI
(`tdefl_compress` / `tinfl_decompress` in deflate.rs); its implementation
is not part of the repository.  The pipes below are therefore modelled at
the level of their net observable effect, with the engine as an abstract
function parameter. -/

/-- Modelled from the spec: the opaque DEFLATE compression engine behind
`Deflator::compress_pipe`.  `defl X` is the concatenation of all engine
output emitted while compressing the whole input `X` (§4.1/§4.2 of the
spec treat the engine as an opaque contract).  The gzip-level facts below
hold for every such function. -/
def DeflateEngine : Type := List Nat → List Nat

/-- Modelled from the spec: the opaque DEFLATE decompression engine behind
`Inflator::decompress_pipe`.  `infl S` returns the decompressed plaintext
together with the unconsumed tail of the input stream (§4.1/§4.3: on DONE
the engine stops at the end of the DEFLATE stream and the remaining input
is handed to `rest_fn`). -/
def InflateEngine : Type := List Nat → List Nat × List Nat

/-- Net effect of the Deflator pipe inside `GZip::compress_pipe`
(gzip.rs lines 282-319): the read callback accumulates the CRC-32 over
every plaintext chunk read (their concatenation is `X`), the engine
output is forwarded to the writer, and on DONE `crc32 := cmp_crc32` and
the end section is written. -/
def GZip.compress_pipe_model (defl : DeflateEngine) (g : GZip) (X : List Nat) :
    GZip × List Nat :=
  let g1 := { g with cmp_crc32 := update_crc g.cmp_crc32 X 0 X.length }
  let g2 := { g1 with crc32 := g1.cmp_crc32 }
  (g2, defl X ++ g2.writeEndSection)

/-- `GZip::compress_init` followed by `GZip::compress_pipe`: the full
byte stream written for input `X`. -/
def gzip_compress (defl : DeflateEngine) (file_name : List Nat)
    (mtime file_size : Nat) (X : List Nat) : List Nat :=
  let (g, header) := GZip.compress_init file_name mtime file_size
  header ++ (GZip.compress_pipe_model defl g X).2

/-- Net effect of `GZip::decompress_pipe` (gzip.rs lines 155-206): the
engine decompresses the stream, the write callback accumulates the CRC-32
over the emitted plaintext, the unconsumed input tail supplies the 8-byte
end section (anything beyond it becomes the returned extra bytes), and the
stored CRC is verified against the computed one.  In this whole-stream
model the underlying reader is exhausted, so the `read_buf_upto` top-up
for a short end section contributes nothing. -/
def GZip.decompress_pipe_model (infl : InflateEngine) (g : GZip)
    (input : List Nat) : Except String (List Nat × List Nat × GZip) :=
  let (plain, rest) := infl input
  let g1 := { g with cmp_crc32 := update_crc g.cmp_crc32 plain 0 plain.length }
  let end_len := rest.length
  let end_buf := rest.take END_LENGTH
  let extra_buf := rest.drop (min END_LENGTH end_len)
  match g1.readEndSection end_buf end_len with
  | .error e => .error e
  | .ok g2 =>
    match g2.checkCrc with
    | .error e => .error e
    | .ok () => .ok (plain, extra_buf, g2)

/-- `GZip::decompress_init` (readHeader then readHeaderExtra) followed by
`GZip::decompress_pipe`; returns the emitted plaintext and the extra
bytes found past the gzip stream. -/
def gzip_decompress (infl : InflateEngine) (S : List Nat) :
    Except String (List Nat × List Nat) :=
  match GZip.readHeader S with
  | .error e => .error e
  | .ok (g, rest) =>
    let (g, rest) := g.readHeaderExtra rest
    match GZip.decompress_pipe_model infl g rest with
    | .error e => .error e
    | .ok (plain, extra, _) => .ok (plain, extra)

end Gzip

/-! ## Deflate module (deflate.rs) -/

namespace Deflate

def MAX_COMPRESS_LEVEL : Nat := 9

/-- The `TDEFL_NUM_PROBES` table of deflate.rs line 78. -/
def TDEFL_NUM_PROBES : List Nat := [0, 1, 8, 16, 32, 128, 256, 512, 768, 1500]

def MIN_DECOMPRESS_BUF_SIZE : Nat := 32768

/-- `calc_buf_size` from deflate.rs line 139:
`1024 * 2 ^ buf_size_factor`. -/
def calc_buf_size (buf_size_factor : Nat) : Nat :=
  1024 * 2 ^ buf_size_factor

/-- The clamp applied by `Deflator::init` (deflate.rs line 200):
`num::min(MAX_COMPRESS_LEVEL, compress_level)`. -/
def Deflator.init_clamped_level (compress_level : Nat) : Nat :=
  min MAX_COMPRESS_LEVEL compress_level

/-- The number of dictionary probes selected by `Deflator::init`
(deflate.rs line 202): `TDEFL_NUM_PROBES[compress_level]` after the
clamp. -/
def Deflator.init_num_probes (compress_level : Nat) : Nat :=
  TDEFL_NUM_PROBES.getD (Deflator.init_clamped_level compress_level) 0

/-- Length of the output ring buffer allocated by
`Inflator::with_size_factor` (deflate.rs line 437):
`calc_buf_size(buf_size_factor) * 2`. -/
def Inflator.out_buf_len (buf_size_factor : Nat) : Nat :=
  calc_buf_size buf_size_factor * 2

/-- `Inflator::new` (deflate.rs line 424) delegates to
`with_size_factor(1)`. -/
def Inflator.new_out_buf_len : Nat := Inflator.out_buf_len 1

/-! ### Inflator.decompress_read (deflate.rs lines 560-616)

The decompression engine called through `Inflator::decompress_buf` is the
native `tinfl_decompress`; it is modelled from the spec as an abstract
step machine over an opaque state type `σ`.  Everything around it — the
staging buffers, cursors, the `decomp_done` flag and the control flow of
`decompress_read` — is embedded from the source. -/

/-- `Inflate_Status` from deflate.rs (the values reachable from
`tinfl_decompress` plus the wrapper's extra codes). -/
inductive InflateStatus where
  | BAD_PARAM
  | ADLER32_MISMATCH
  | FAILED
  | DONE
  | NEEDS_MORE_INPUT
  | HAS_MORE_OUTPUT
  | ABORT
  | UNKNOWN
  deriving Repr, DecidableEq

/-- Result of one engine step: successor engine state, number of input
bytes consumed, bytes produced into the output window, and the status. -/
structure EngineResult (σ : Type) where
  state : σ
  consumed : Nat
  produced : List Nat
  status : InflateStatus
  deriving Repr, DecidableEq

/-- Modelled from the spec: the opaque `tinfl_decompress` engine behind
`Inflator::decompress_buf`.  Arguments: engine state, the pending input
slice, the final-input flag, and the free space in the output buffer. -/
def InflateStep (σ : Type) : Type :=
  σ → List Nat → Bool → Nat → EngineResult σ

/-- The `Inflator` struct of deflate.rs (decompression-relevant fields).
`in_buf` holds the staged input chunk, `in_buf_total` its filled length,
`in_offset` the read cursor; `out_buf` is the fixed-length output ring
with cached output between `out_begin` and `out_offset`. -/
structure InflatorSt (σ : Type) where
  engine : σ
  in_buf : List Nat
  in_offset : Nat
  in_buf_total : Nat
  out_buf : List Nat
  out_begin : Nat
  out_offset : Nat
  decomp_done : Bool
  deriving Repr, DecidableEq

/-- Overwrite `buf` starting at `off` with `data` (the engine writing its
produced bytes into the output ring at `out_offset`). -/
def writeAt (buf : List Nat) (off : Nat) (data : List Nat) : List Nat :=
  buf.take off ++ data ++ buf.drop (off + data.length)

/-- The inner refill loop of `Inflator::decompress_read` (deflate.rs
lines 584-614): read input when the staging buffer is empty (`reads` is
the stream of `read_fn` results; an exhausted stream reads 0 = EOF), run
the engine, advance the cursors, and stop when the ring is full
(status NEEDS_MORE_INPUT/HAS_MORE_OUTPUT with `out_offset` at capacity)
or the engine reports DONE; other statuses are errors.  `fuel` bounds the
iteration count, `none` meaning the bound was hit. -/
def Inflator.refill_loop (step : InflateStep σ) :
    Nat → InflatorSt σ → List (List Nat) →
    Option (Except InflateStatus Unit × InflatorSt σ × List (List Nat))
  | 0, _, _ => none
  | fuel + 1, st, reads =>
    let (st, reads) :=
      if st.in_offset = st.in_buf_total then
        match reads with
        | [] => ({ st with in_buf := [], in_buf_total := 0, in_offset := 0 }, [])
        | d :: rs => ({ st with in_buf := d, in_buf_total := d.length, in_offset := 0 }, rs)
      else (st, reads)
    let in_bytes := st.in_buf_total - st.in_offset
    let out_bytes := st.out_buf.length - st.out_offset
    let final_input := st.in_buf_total = 0
    let r := step st.engine ((st.in_buf.drop st.in_offset).take in_bytes)
      final_input out_bytes
    let st := { st with
      engine := r.state,
      in_offset := st.in_offset + r.consumed,
      out_buf := writeAt st.out_buf st.out_offset r.produced,
      out_offset := st.out_offset + r.produced.length }
    match r.status with
    | .NEEDS_MORE_INPUT =>
      if st.out_offset = st.out_buf.length then some (.ok (), st, reads)
      else Inflator.refill_loop step fuel st reads
    | .HAS_MORE_OUTPUT =>
      if st.out_offset = st.out_buf.length then some (.ok (), st, reads)
      else Inflator.refill_loop step fuel st reads
    | .DONE => some (.ok (), { st with decomp_done := true }, reads)
    | e => some (.error e, st, reads)

/-- `Inflator::decompress_read` (deflate.rs lines 560-616).  Returns the
bytes copied into the caller's output buffer (the call's result
`Ok(output_len)` is their length), the successor state, and the unread
part of the input stream.  Mirrors the source: first drain the cached
output, then return 0 forever once `decomp_done`, otherwise reset the
ring and run the refill loop before draining again. -/
def Inflator.decompress_read (step : InflateStep σ) :
    Nat → InflatorSt σ → List (List Nat) → Nat →
    Option (Except InflateStatus (List Nat) × InflatorSt σ × List (List Nat))
  | 0, _, _, _ => none
  | fuel + 1, st, reads, output_buf_len =>
    let out_available_bytes := st.out_offset - st.out_begin
    if 0 < out_available_bytes then
      let output_len := min output_buf_len out_available_bytes
      some (.ok ((st.out_buf.drop st.out_begin).take output_len),
            { st with out_begin := st.out_begin + output_len }, reads)
    else if st.decomp_done then
      some (.ok [], st, reads)
    else
      let st := { st with out_begin := 0, out_offset := 0 }
      match Inflator.refill_loop step (fuel + 1) st reads with
      | none => none
      | some (.error e, st1, reads1) => some (.error e, st1, reads1)
      | some (.ok (), st1, reads1) =>
        Inflator.decompress_read step fuel st1 reads1 output_buf_len

end Deflate

/-! ## Zip archive reader (src/src/libextra/zip.rs) -/

namespace Zip

def CD_METADATA_MAGIC : Nat := 0x06054B50
def CD_HEADER_MAGIC : Nat := 0x02014B50
def LOCAL_HEADER_MAGIC : Nat := 0x04034B50
def LOCAL_DESC_MAGIC : Nat := 0x08074B50
def CD_METADATA_SIZE : Nat := 22
def MAX_COMMENT_SIZE : Nat := 0xFFFF
def CD_FILE_HEADER_SIZE : Nat := 46
def LOCAL_FILE_HEADER_SIZE : Nat := 30
def DATA_DESCRIPTOR_SIZE : Nat := 12
def METHOD_STORE : Nat := 0
def METHOD_DEFLATE : Nat := 8

/-- The `LocalFileHeader` struct of zip.rs. -/
structure LocalFileHeader where
  version_needed : Nat := 0
  general_flag : Nat := 0
  compression_method : Nat := 0
  modified_time : Nat := 0
  modified_date : Nat := 0
  crc32 : Nat := 0
  compressed_size : Nat := 0
  uncompressed_size : Nat := 0
  file_name_length : Nat := 0
  extra_field_length : Nat := 0
  file_name : Option (List Nat) := none
  extra_field : Option (List Nat) := none
  deriving Repr, DecidableEq

/-- `LocalFileHeader::unpack_header` from zip.rs (lines 284-303): check
the signature then parse the fixed fields; returns the header and the
offset just past the fixed part.  The source raises an io_error condition
on a bad signature, modelled as `Except.error`. -/
def LocalFileHeader.unpack_header (buf : List Nat) (offset : Nat) :
    Except String (LocalFileHeader × Nat) :=
  if unpack_u32_le buf offset ≠ LOCAL_HEADER_MAGIC then
    .error "Zip local file header signature mismatched"
  else
    .ok ({ version_needed := unpack_u16_le buf (offset + 4),
           general_flag := unpack_u16_le buf (offset + 6),
           compression_method := unpack_u16_le buf (offset + 8),
           modified_time := unpack_u16_le buf (offset + 10),
           modified_date := unpack_u16_le buf (offset + 12),
           crc32 := unpack_u32_le buf (offset + 14),
           compressed_size := unpack_u32_le buf (offset + 18),
           uncompressed_size := unpack_u32_le buf (offset + 22),
           file_name_length := unpack_u16_le buf (offset + 26),
           extra_field_length := unpack_u16_le buf (offset + 28) },
         offset + 30)

/-- `LocalFileHeader::get_rest_length` from zip.rs. -/
def LocalFileHeader.get_rest_length (h : LocalFileHeader) : Nat :=
  h.file_name_length + h.extra_field_length

/-- `LocalFileHeader::get_total_length` from zip.rs. -/
def LocalFileHeader.get_total_length (h : LocalFileHeader) : Nat :=
  LOCAL_FILE_HEADER_SIZE + h.get_rest_length

/-- `LocalFileHeader::unpack_header_rest` from zip.rs (lines 306-316):
fill in the variable-length file name and extra field of the header. -/
def LocalFileHeader.unpack_header_rest (h : LocalFileHeader) (buf : List Nat)
    (offset : Nat) : LocalFileHeader × Nat :=
  let (h, offset) :=
    if h.file_name_length > 0 then
      ({ h with file_name := some ((buf.drop offset).take h.file_name_length) },
       offset + h.file_name_length)
    else (h, offset)
  if h.extra_field_length > 0 then
    ({ h with extra_field := some ((buf.drop offset).take h.extra_field_length) },
     offset + h.extra_field_length)
  else (h, offset)

/-- `LocalFileHeader::read_header` from zip.rs (lines 326-337).  The
source reads the 30 fixed bytes (error when fewer are available), parses
them with `unpack_header` into a FRESH local variable `header`
(`let mut header = LocalFileHeader::new()`), reads that header's
variable-length rest, parses it into the same local — and then returns
without ever assigning `self`: the receiver is left unchanged and the
parse result is dropped.  The model returns the unchanged receiver (as
the source does), together with the discarded local header and the
remaining input, so the discard is observable. -/
def LocalFileHeader.read_header (self : LocalFileHeader) (input : List Nat) :
    Except String (LocalFileHeader × LocalFileHeader × List Nat) :=
  if input.length < LOCAL_FILE_HEADER_SIZE then
    .error "Zip local file header does not have enough data"
  else
    match LocalFileHeader.unpack_header (input.take LOCAL_FILE_HEADER_SIZE) 0 with
    | .error e => .error e
    | .ok (header, _) =>
      let rest := input.drop LOCAL_FILE_HEADER_SIZE
      let rest_len := header.get_rest_length
      let rest_buf := rest.take rest_len
      let header := (header.unpack_header_rest rest_buf 0).1
      .ok (self, header, rest.drop rest_len)

/-- The `ZipEntry32` struct of zip.rs (central-directory entry with its
nested local file header). -/
structure ZipEntry32 where
  version_made_by : Nat := 0
  version_needed : Nat := 0
  general_flag : Nat := 0
  compression_method : Nat := 0
  modified_time : Nat := 0
  modified_date : Nat := 0
  crc32 : Nat := 0
  compressed_size : Nat := 0
  uncompressed_size : Nat := 0
  file_name_length : Nat := 0
  extra_field_length : Nat := 0
  file_comment_length : Nat := 0
  disk_number_start : Nat := 0
  internal_file_attributes : Nat := 0
  external_file_attributes : Nat := 0
  local_header_offset : Nat := 0
  file_name : Option (List Nat) := none
  extra_field : Option (List Nat) := none
  file_comment : Option (List Nat) := none
  local_header : LocalFileHeader := {}
  deriving Repr, DecidableEq

/-- `ZipEntry32::read_local_file_header` from zip.rs (lines 486-489):
seek to `local_header_offset` and run `read_header` on the entry's
`local_header` field (`input` is the file content at that offset).
Because `read_header` never writes its receiver, the entry comes back
with its `local_header` unchanged — for a fresh entry, all-zero name and
extra lengths. -/
def ZipEntry32.read_local_file_header (e : ZipEntry32) (input : List Nat) :
    Except String ZipEntry32 :=
  match e.local_header.read_header input with
  | .error err => .error err
  | .ok (lh, _, _) => .ok { e with local_header := lh }

/-- `ZipEntry32::get_file_data_offset` from zip.rs (lines 491-493): the
compressed data starts right after the local header and its variable
fields. -/
def ZipEntry32.get_file_data_offset (e : ZipEntry32) : Nat :=
  e.local_header_offset + e.local_header.get_total_length

/-- `ZipEntry32::read_file_data` from zip.rs (lines 495-506), modelled as
the file access it performs: `none` when `compressed_size - read_offset`
is 0 (the call returns 0 without seeking), otherwise the seek position
`get_file_data_offset() + read_offset` paired with the read length
`min(remaining, output_buf.len())`. -/
def ZipEntry32.read_file_data_plan (e : ZipEntry32)
    (read_offset output_buf_len : Nat) : Option (Nat × Nat) :=
  let remaining_len := e.compressed_size - read_offset
  if remaining_len = 0 then none
  else some (e.get_file_data_offset + read_offset,
             min remaining_len output_buf_len)

/-- `update_crc` from zip.rs (lines 753-757).  The table-driven loop is
an unfinished TODO in the source; the body is just the pre and post
one's complements. -/
def update_crc (crc : Nat) (buf : List Nat) (frm upto : Nat) : Nat :=
  (crc ^^^ 0xFFFFFFFF) ^^^ 0xFFFFFFFF

/-- `ZipEntry32::checkCrc` from zip.rs (lines 513-515): an empty TODO —
no comparison is performed and no error can be raised, modelled as an
`Except` that is always `ok`. -/
def ZipEntry32.checkCrc (e : ZipEntry32) : Except String Unit :=
  .ok ()

/-! ### read_buf_upto (zip.rs lines 738-751, identical in gzip.rs 637-650)

The reader is modelled as a response stream `resp : Nat → Option Nat`
giving the result of the n-th `reader.read` call: `some k` for a
successful read of `k` bytes into the slice, `none` for EOF.  This keeps
readers that answer forever expressible, which is what the termination
claim quantifies over. -/

/-- One iteration of the `read_buf_upto` loop at accumulated count
`total_read`: `Sum.inl` is "continue with this new total", `Sum.inr` is
"exit the loop returning this total".  Note a successful zero-length read
(`some 0`) continues the loop with an unchanged total; only `none`
breaks. -/
def read_buf_upto_body (r : Option Nat) (total_read len_to_read : Nat) :
    Sum Nat Nat :=
  if total_read < len_to_read then
    match r with
    | some read_len => Sum.inl (total_read + read_len)
    | none => Sum.inr total_read
  else Sum.inr total_read

/-- The `read_buf_upto` loop with a fuel bound: `calls` counts the
`reader.read` calls made so far, and `none` means the loop was still
running when the fuel ran out. -/
def read_buf_upto_fuel (resp : Nat → Option Nat) :
    Nat → Nat → Nat → Nat → Option Nat
  | 0, _, _, _ => none
  | fuel + 1, calls, total_read, len_to_read =>
    match read_buf_upto_body (resp calls) total_read len_to_read with
    | Sum.inl total2 => read_buf_upto_fuel resp fuel (calls + 1) total2 len_to_read
    | Sum.inr total2 => some total2

end Zip

/-! ## Claim theorems -/

/-! ### C3: compression level clamp and probe table -/

/-- C3 counterexample: the claim maps level 2 to 6 dictionary probes, but
`TDEFL_NUM_PROBES` in deflate.rs is `[0,1,8,16,32,128,256,512,768,1500]`,
so `Deflator::init` selects 8 probes at level 2. -/
theorem claim3_counterexample :
    Deflate.Deflator.init_num_probes 2 = 8 ∧
    Deflate.Deflator.init_num_probes 2 ≠ 6 := by
  constructor <;> decide

/-- C3 (amended): `Deflator::init` clamps the level to at most 9 (levels
already in [0,9] are unchanged), and the probe counts actually selected
are 0,1,8,16,32,128,256,512,768,1500 for levels 0-9, with every level
above 9 (including 10) clamped to level 9's 1500 probes. -/
theorem claim3_probes_table :
    (∀ level, Deflate.Deflator.init_clamped_level level ≤ 9) ∧
    (∀ level, level ≤ 9 → Deflate.Deflator.init_clamped_level level = level) ∧
    Deflate.Deflator.init_num_probes 0 = 0 ∧
    Deflate.Deflator.init_num_probes 1 = 1 ∧
    Deflate.Deflator.init_num_probes 2 = 8 ∧
    Deflate.Deflator.init_num_probes 3 = 16 ∧
    Deflate.Deflator.init_num_probes 4 = 32 ∧
    Deflate.Deflator.init_num_probes 5 = 128 ∧
    Deflate.Deflator.init_num_probes 6 = 256 ∧
    Deflate.Deflator.init_num_probes 7 = 512 ∧
    Deflate.Deflator.init_num_probes 8 = 768 ∧
    Deflate.Deflator.init_num_probes 9 = 1500 ∧
    (∀ level, 9 ≤ level → Deflate.Deflator.init_num_probes level = 1500) := by
  refine ⟨?_, ?_, by decide, by decide, by decide, by decide, by decide,
    by decide, by decide, by decide, by decide, by decide, ?_⟩
  · intro level
    exact Nat.min_le_left _ _
  · intro level h
    exact Nat.min_eq_right h
  · intro level h
    have : Deflate.Deflator.init_clamped_level level = 9 := Nat.min_eq_left h
    simp [Deflate.Deflator.init_num_probes, this]
    decide

/-- C3 witness: the quantified parts of `claim3_probes_table` applied at
level 10. -/
theorem claim3_witness :
    Deflate.Deflator.init_clamped_level 10 ≤ 9 ∧
    Deflate.Deflator.init_num_probes 10 = 1500 :=
  ⟨claim3_probes_table.1 10, claim3_probes_table.2.2.2.2.2.2.2.2.2.2.2.2 10 (by decide)⟩

/-! ### C6: Inflator output ring size -/

/-- C6 counterexample: `Inflator::new()` delegates to
`with_size_factor(1)`, whose output ring is `1024 * 2^1 * 2 = 4096`
bytes — a power of two but smaller than 32768, refuting "at least 32768
for every factor". -/
theorem claim6_counterexample :
    Deflate.Inflator.new_out_buf_len = 4096 ∧
    ¬ 32768 ≤ Deflate.Inflator.new_out_buf_len := by
  constructor <;> decide

/-- C6 (amended): for every size factor `F` the output ring length is the
power of two `2^(11+F)`; it is at least 32768 exactly when `F ≥ 4` —
in particular for every factor at or above the gzip module's
`MIN_SIZE_FACTOR = 5` — but `new()` (factor 1) and factors below 4
fall short of 32768. -/
theorem claim6_ring_size (buf_size_factor : Nat) :
    Deflate.Inflator.out_buf_len buf_size_factor = 2 ^ (11 + buf_size_factor) ∧
    (32768 ≤ Deflate.Inflator.out_buf_len buf_size_factor ↔
      4 ≤ buf_size_factor) := by
  have hpow : Deflate.Inflator.out_buf_len buf_size_factor =
      2 ^ (11 + buf_size_factor) := by
    show 1024 * 2 ^ buf_size_factor * 2 = 2 ^ (11 + buf_size_factor)
    rw [pow_add]
    ring
  refine ⟨hpow, ?_⟩
  rw [hpow]
  constructor
  · intro h32
    by_contra hlt
    have hle : (2 : Nat) ^ (11 + buf_size_factor) ≤ 2 ^ 14 :=
      Nat.pow_le_pow_right (by norm_num) (by omega)
    have h14 : (2 : Nat) ^ 14 = 16384 := by norm_num
    omega
  · intro h4
    calc (32768 : Nat) = 2 ^ 15 := by norm_num
    _ ≤ 2 ^ (11 + buf_size_factor) := Nat.pow_le_pow_right (by norm_num) (by omega)

/-- C6 witness: `claim6_ring_size` at the minimum gzip size factor 5
(ring 2^16 ≥ 32768) and at `new()`'s factor 1 (ring below 32768, via the
reverse direction of the iff). -/
theorem claim6_witness :
    Deflate.Inflator.out_buf_len 5 = 2 ^ 16 ∧
    32768 ≤ Deflate.Inflator.out_buf_len 5 ∧
    ¬ 32768 ≤ Deflate.Inflator.out_buf_len 1 :=
  ⟨(claim6_ring_size 5).1.trans (by norm_num),
   (claim6_ring_size 5).2.mpr (by decide),
   fun h => absurd ((claim6_ring_size 1).2.mp h) (by decide)⟩

/-! ### C5: zip entry data window -/

/-- Concrete entry for the C5 failing input: a fresh central-directory
entry whose local header sits at offset 100 (its nested `local_header`
is `LocalFileHeader::new()`, as in the program before `read_header`). -/
def entry5W : Zip.ZipEntry32 :=
  { local_header_offset := 100 }

/-- The file bytes at the local header of the C5 failing input: a valid
30-byte local file header (signature 0x04034B50) announcing
name_length = 5 and extra_length = 3, followed by the 5-byte filename
"a.txt" and a 3-byte extra field. -/
def lfhStream5W : List Nat :=
  pack_u32_le Zip.LOCAL_HEADER_MAGIC ++ List.replicate 22 0 ++ [5, 0, 3, 0] ++
    [97, 46, 116, 120, 116] ++ [1, 2, 3]

/-- The local header that `read_header` parses and then drops at the C5
failing input. -/
def discarded5W : Zip.LocalFileHeader :=
  match Zip.LocalFileHeader.read_header entry5W.local_header lfhStream5W with
  | .ok (_, header, _) => header
  | .error _ => {}

/-- C5: the claim (and the intent visible in `get_total_length` /
`get_file_data_offset`) has the compressed data start at
`local_header_offset + 30 + name_length + extra_length`, but
`LocalFileHeader::read_header` parses the header into a fresh local
variable and never assigns `self`, so after `read_local_file_header` the
entry field `local_header` still carries all-zero lengths — proved in
general by the first conjunct: a successful `read_header` always returns
its receiver unchanged.  At the failing input (name_length 5,
extra_length 3 at offset 100) the reader therefore starts reading at
100 + 30 = 130, while the discarded parse carries the lengths that the
claim says contribute: 100 + 30 + 5 + 3 = 138 ≠ 130.  The filename and
extra bytes are read as if they were compressed data. -/
theorem claim5_local_header_discarded :
    (∀ (self : Zip.LocalFileHeader) (input : List Nat)
       (r : Zip.LocalFileHeader × Zip.LocalFileHeader × List Nat),
      Zip.LocalFileHeader.read_header self input = .ok r → r.1 = self) ∧
    Zip.ZipEntry32.read_local_file_header entry5W lfhStream5W = .ok entry5W ∧
    entry5W.get_file_data_offset = 130 ∧
    discarded5W.file_name_length = 5 ∧
    discarded5W.extra_field_length = 3 ∧
    entry5W.local_header_offset + 30 + discarded5W.file_name_length +
      discarded5W.extra_field_length ≠ entry5W.get_file_data_offset := by
  refine ⟨?_, rfl, by decide, by decide, by decide, by decide⟩
  intro self input r h
  unfold Zip.LocalFileHeader.read_header at h
  by_cases hlen : input.length < Zip.LOCAL_FILE_HEADER_SIZE
  · rw [if_pos hlen] at h
    cases h
  · rw [if_neg hlen] at h
    cases hm2 : Zip.LocalFileHeader.unpack_header
        (input.take Zip.LOCAL_FILE_HEADER_SIZE) 0 with
    | error e =>
      rw [hm2] at h
      cases h
    | ok pr =>
      rw [hm2] at h
      obtain ⟨header, off⟩ := pr
      simp only [Except.ok.injEq] at h
      rw [← h]


/-! ### C4: zip per-entry CRC verification (unimplemented in the code) -/

/-- C4: the claim (and spec §4.6) requires ZipReader to maintain a
running CRC-32 over emitted plaintext and fail fatally on mismatch, but
the code's `update_crc` in zip.rs is a TODO stub (the pre and post one's
complements cancel, leaving the accumulator unchanged for every input),
and `ZipEntry32::checkCrc` is an empty TODO that can never raise an
error.  At the failing input — plaintext "abc" = [97,98,99] with a stored
entry CRC of 0 — the real CRC-32 (as computed by gzip.rs's table-driven
`update_crc`) is 0x352441C2 ≠ 0, yet the zip reader's accumulator stays 0
and `checkCrc` accepts. -/
theorem claim4_zip_crc_unverified :
    (∀ crc buf frm upto, Zip.update_crc crc buf frm upto = crc) ∧
    Zip.update_crc 0 [97, 98, 99] 0 3 = 0 ∧
    Gzip.update_crc 0 [97, 98, 99] 0 3 = 0x352441C2 ∧
    (0x352441C2 : Nat) ≠ 0 ∧
    Zip.ZipEntry32.checkCrc { crc32 := 0 } = .ok () := by
  refine ⟨?_, ?_, ?_, by decide, rfl⟩
  · intro crc buf frm upto
    show (crc ^^^ 0xFFFFFFFF) ^^^ 0xFFFFFFFF = crc
    rw [Nat.xor_assoc, Nat.xor_self, Nat.xor_zero]
  · show (0 ^^^ 0xFFFFFFFF) ^^^ 0xFFFFFFFF = 0
    rw [Nat.xor_assoc, Nat.xor_self, Nat.xor_zero]
  · decide

/-! ### C2: the ISIZE trailer field -/

lemma drop_last_of_append (A p : List Nat) (hp : p.length = 4) :
    (A ++ p).drop ((A ++ p).length - 4) = p := by
  have : (A ++ p).length - 4 = A.length := by
    rw [List.length_append, hp]
    omega
  rw [this, List.drop_left]

/-- C2 counterexample: compressing `X = [65]` (one byte) through the
framer after `compress_init` with `file_size = 0` stores ISIZE 0, while
`|X| mod 2^32 = 1`.  (The engine is instantiated with the identity
function; the trailer does not depend on the engine output's contents.) -/
theorem claim2_counterexample :
    (unpack_u32_le
      ((Gzip.gzip_compress (fun x => x) [] 0 0 [65]).drop
        ((Gzip.gzip_compress (fun x => x) [] 0 0 [65]).length - 4)) 0) = 0 ∧
    ([65] : List Nat).length % 2 ^ 32 = 1 ∧ (0 : Nat) ≠ 1 := by
  refine ⟨?_, by decide, by decide⟩
  decide

/-- C2 (amended): the ISIZE field of the trailer written by the gzip
framer equals the `file_size` argument handed to `GZip::compress_init`
(reduced mod 2^32), not the length of the compressed plaintext `X`; the
two agree only when the caller passes `|X|` as `file_size` (as the CLI
does with the input file's stat size). -/
theorem claim2_isize_is_file_size_arg (defl : Gzip.DeflateEngine)
    (file_name : List Nat) (mtime file_size : Nat) (X : List Nat) :
    unpack_u32_le
      ((Gzip.gzip_compress defl file_name mtime file_size X).drop
        ((Gzip.gzip_compress defl file_name mtime file_size X).length - 4)) 0 =
      file_size % 2 ^ 32 := by
  have hshape : Gzip.gzip_compress defl file_name mtime file_size X =
      (((Gzip.GZip.compress_init file_name mtime file_size).2 ++ defl X) ++
        pack_u32_le (Gzip.update_crc 0 X 0 X.length)) ++
        pack_u32_le file_size := by
    show ((Gzip.GZip.compress_init file_name mtime file_size).2 ++
        (defl X ++ (pack_u32_le (Gzip.update_crc 0 X 0 X.length) ++
          pack_u32_le file_size))) = _
    simp [List.append_assoc]
  rw [hshape, drop_last_of_append _ _ (pack_u32_le_length _)]
  have := unpack_pack_u32 file_size []
  rwa [List.append_nil] at this

/-! ### C9: termination of read_buf_upto -/

lemma read_buf_upto_zero_reads_spin (fuel calls : Nat) :
    Zip.read_buf_upto_fuel (fun _ => some 0) fuel calls 0 1 = none := by
  induction fuel generalizing calls with
  | zero => rfl
  | succ n ih =>
    show Zip.read_buf_upto_fuel (fun _ => some 0) n (calls + 1) (0 + 0) 1 = none
    exact ih (calls + 1)

/-- C9 counterexample: a reader that answers every call with a successful
zero-length read (`Some(0)` in the source's `Option<uint>` API) defeats
the claimed termination: the loop body maps the state (0 bytes
accumulated, 1 requested) back to itself and never takes the break
branch — only `None` breaks — so the loop runs forever (no fuel bound
suffices; shown here for a million iterations). -/
theorem claim9_counterexample :
    Zip.read_buf_upto_body (some 0) 0 1 = Sum.inl 0 ∧
    Zip.read_buf_upto_fuel (fun _ => some 0) 1000000 0 0 1 = none :=
  ⟨rfl, read_buf_upto_zero_reads_spin 1000000 0⟩

/-- C9 (amended): `read_buf_upto` terminates with the accumulated count
provided every successful read delivers at least one byte (readers may
also signal EOF with `None` at any point); `len_to_read + 1` reader calls
then always suffice.  A reader that keeps returning zero-length
successful reads makes the loop spin forever. -/
theorem claim9_read_buf_upto_terminates (resp : Nat → Option Nat)
    (len_to_read : Nat) (h : ∀ n k, resp n = some k → 1 ≤ k) :
    ∃ total, Zip.read_buf_upto_fuel resp (len_to_read + 1) 0 0 len_to_read =
      some total := by
  suffices hgen : ∀ fuel calls total, len_to_read - total < fuel →
      ∃ t, Zip.read_buf_upto_fuel resp fuel calls total len_to_read = some t by
    exact hgen (len_to_read + 1) 0 0 (by omega)
  intro fuel
  induction fuel with
  | zero => omega
  | succ n ih =>
    intro calls total hlt
    show ∃ t, (match Zip.read_buf_upto_body (resp calls) total len_to_read with
      | Sum.inl total2 => Zip.read_buf_upto_fuel resp n (calls + 1) total2 len_to_read
      | Sum.inr total2 => some total2) = some t
    unfold Zip.read_buf_upto_body
    by_cases hcont : total < len_to_read
    · rw [if_pos hcont]
      cases hresp : resp calls with
      | none => exact ⟨total, rfl⟩
      | some k =>
        have hk : 1 ≤ k := h calls k hresp
        exact ih (calls + 1) (total + k) (by omega)
    · rw [if_neg hcont]
      exact ⟨total, rfl⟩

/-- C9 witness: `claim9_read_buf_upto_terminates` for a reader that is at
EOF from the start (always `None`) and a request of 3 bytes. -/
theorem claim9_witness :
    ∃ total, Zip.read_buf_upto_fuel (fun _ => none) 4 0 0 3 = some total :=
  claim9_read_buf_upto_terminates (fun _ => none) 3
    (fun n k hk => by cases hk)

/-! ### C10: compress_init flag byte and filename section -/

/-- C10: `GZip::compress_init` with an empty `file_name` emits exactly
the 10 fixed header bytes with flag byte 0 and no filename section; with
a non-empty `file_name` it sets the FNAME bit (0x08) as the flag byte and
emits the filename zero-terminated immediately after the 10 fixed
bytes. -/
theorem claim10_compress_init_header (file_name : List Nat)
    (mtime file_size : Nat) (h : file_name ≠ []) :
    (Gzip.GZip.compress_init [] mtime file_size).2 =
      [0x1f, 0x8b, 8, 0] ++ pack_u32_le mtime ++ [0, 0] ∧
    (Gzip.GZip.compress_init file_name mtime file_size).2 =
      ([0x1f, 0x8b, 8, 8] ++ pack_u32_le mtime ++ [0, 0]) ++ (file_name ++ [0]) := by
  constructor
  · show Gzip.GZip.writeHeader _ ++ Gzip.GZip.writeHeaderExtra _ = _
    simp [Gzip.GZip.compress_init, Gzip.GZip.writeHeader, Gzip.GZip.writeHeaderExtra,
      Gzip.GZip.new, Gzip.MAGIC1, Gzip.MAGIC2, Gzip.METHOD_DEFLATE,
      Gzip.FEXTRA, Gzip.FNAME, Gzip.FCOMMENT, Gzip.FHCRC]
  · have hlen : file_name.length > 0 := List.length_pos.mpr h
    show Gzip.GZip.writeHeader _ ++ Gzip.GZip.writeHeaderExtra _ = _
    simp [Gzip.GZip.compress_init, Gzip.GZip.writeHeader, Gzip.GZip.writeHeaderExtra,
      Gzip.GZip.new, Gzip.MAGIC1, Gzip.MAGIC2, Gzip.METHOD_DEFLATE,
      Gzip.FEXTRA, Gzip.FNAME, Gzip.FCOMMENT, Gzip.FHCRC, Gzip.to_strz, hlen]

/-- C10 witness: `claim10_compress_init_header` at the one-byte filename
"a" (= [97]) with mtime 0 and file_size 0. -/
theorem claim10_witness :
    ([97] : List Nat) ≠ [] ∧
    (Gzip.GZip.compress_init [97] 0 0).2 =
      [0x1f, 0x8b, 8, 8, 0, 0, 0, 0, 0, 0, 97, 0] := by
  refine ⟨by decide, ?_⟩
  have h := (claim10_compress_init_header [97] 0 0 (by decide)).2
  rw [h]
  decide

/-! ### C8: gzip header reading -/

lemma getD_take_of_lt (s : List Nat) (i n : Nat) (h : i < n) :
    (s.take n).getD i 0 = s.getD i 0 := by
  rw [List.getD_eq_getElem?_getD, List.getD_eq_getElem?_getD, List.getElem?_take]
  simp [h]

lemma readHeader_short (s : List Nat) (h : s.length < 10) :
    Gzip.GZip.readHeader s = .error "Too few data to be a valid gzip format." := by
  unfold Gzip.GZip.readHeader
  simp only [Gzip.HEADER_FIXED_LEN]
  rw [if_pos h]

lemma readHeader_bad_signature (s : List Nat) (hlen : 10 ≤ s.length)
    (h : s.getD 0 0 ≠ 0x1f ∨ s.getD 1 0 ≠ 0x8b) :
    Gzip.GZip.readHeader s = .error "Invalid gzip signature" := by
  unfold Gzip.GZip.readHeader
  simp only [Gzip.HEADER_FIXED_LEN]
  rw [if_neg (by omega)]
  rw [if_pos]
  show (s.take 10).getD 0 0 ≠ Gzip.MAGIC1 ∨ (s.take 10).getD 1 0 ≠ Gzip.MAGIC2
  rw [getD_take_of_lt s 0 10 (by omega), getD_take_of_lt s 1 10 (by omega)]
  exact h

lemma readHeader_bad_method (s : List Nat) (hlen : 10 ≤ s.length)
    (h0 : s.getD 0 0 = 0x1f) (h1 : s.getD 1 0 = 0x8b) (h2 : s.getD 2 0 ≠ 8) :
    Gzip.GZip.readHeader s = .error "Unsupported compression method" := by
  unfold Gzip.GZip.readHeader
  simp only [Gzip.HEADER_FIXED_LEN]
  rw [if_neg (by omega)]
  rw [if_neg, if_pos]
  · show (s.take 10).getD 2 0 ≠ Gzip.METHOD_DEFLATE
    rw [getD_take_of_lt s 2 10 (by omega)]
    exact h2
  · show ¬ ((s.take 10).getD 0 0 ≠ Gzip.MAGIC1 ∨ (s.take 10).getD 1 0 ≠ Gzip.MAGIC2)
    rw [getD_take_of_lt s 0 10 (by omega), getD_take_of_lt s 1 10 (by omega)]
    push_neg
    exact ⟨h0, h1⟩

lemma readHeader_fixed (flags m0 m1 m2 m3 xfl osb : Nat) (tail : List Nat) :
    Gzip.GZip.readHeader
      (0x1f :: 0x8b :: 8 :: flags :: m0 :: m1 :: m2 :: m3 :: xfl :: osb :: tail) =
      .ok ({ Gzip.GZip.new with
              id1 := 0x1f, id2 := 0x8b, compression := 8, flags := flags,
              mtime := unpack_u32_le [0x1f, 0x8b, 8, flags, m0, m1, m2, m3, xfl, osb] 4,
              xflags := xfl, os := osb }, tail) := by
  unfold Gzip.GZip.readHeader
  simp only [Gzip.HEADER_FIXED_LEN, Gzip.MAGIC1, Gzip.MAGIC2, Gzip.METHOD_DEFLATE]
  rw [if_neg (by simp)]
  rw [if_neg (by show ¬ (_ ∨ _); push_neg; exact ⟨rfl, rfl⟩)]
  rw [if_neg (by show ¬ (_ ≠ _); push_neg; rfl)]
  rfl

lemma read_le_u16_cons (a b : Nat) (R : List Nat) :
    Gzip.read_le_u16 (a :: b :: R) = (unpack_u16_le [a, b] 0, R) := rfl

lemma read_le_u16_pack (v : Nat) (R : List Nat) :
    Gzip.read_le_u16 (pack_u16_le v ++ R) = (v % 2 ^ 16, R) := by
  show (unpack_u16_le ((pack_u16_le v ++ R).take 2) 0, (pack_u16_le v ++ R).drop 2) = _
  have h1 : (pack_u16_le v ++ R).take 2 = pack_u16_le v := rfl
  have h2 : (pack_u16_le v ++ R).drop 2 = R := rfl
  rw [h1, h2]
  have h3 := unpack_pack_u16 v []
  rw [List.append_nil] at h3
  rw [h3]

lemma readHeaderExtra_sections (g : Gzip.GZip) (xlen : Nat)
    (xpayload name comment : List Nat) (h0 h1 : Nat) (rest : List Nat)
    (hx : xpayload.length = xlen) (hxlen : xlen < 2 ^ 16)
    (hname : ∀ b ∈ name, b ≠ 0) (hcomment : ∀ b ∈ comment, b ≠ 0) :
    Gzip.GZip.readHeaderExtra g
      ((if g.flags &&& Gzip.FEXTRA = Gzip.FEXTRA then pack_u16_le xlen ++ xpayload else []) ++
       ((if g.flags &&& Gzip.FNAME = Gzip.FNAME then name ++ [0] else []) ++
        ((if g.flags &&& Gzip.FCOMMENT = Gzip.FCOMMENT then comment ++ [0] else []) ++
         ((if g.flags &&& Gzip.FHCRC = Gzip.FHCRC then [h0, h1] else []) ++ rest)))) =
    ({ g with
        xfield_len := if g.flags &&& Gzip.FEXTRA = Gzip.FEXTRA then some xlen else g.xfield_len,
        xfield := if g.flags &&& Gzip.FEXTRA = Gzip.FEXTRA then some xpayload else g.xfield,
        filename := if g.flags &&& Gzip.FNAME = Gzip.FNAME then some name else g.filename,
        comment := if g.flags &&& Gzip.FCOMMENT = Gzip.FCOMMENT then some comment else g.comment,
        header_crc := if g.flags &&& Gzip.FHCRC = Gzip.FHCRC then
          some (unpack_u16_le [h0, h1] 0) else g.header_crc },
     rest) := by
  subst hx
  have hmod : xpayload.length % 2 ^ 16 = xpayload.length := Nat.mod_eq_of_lt hxlen
  unfold Gzip.GZip.readHeaderExtra
  by_cases hfe : g.flags &&& Gzip.FEXTRA = Gzip.FEXTRA <;>
  by_cases hfn : g.flags &&& Gzip.FNAME = Gzip.FNAME <;>
  by_cases hfc : g.flags &&& Gzip.FCOMMENT = Gzip.FCOMMENT <;>
  by_cases hfh : g.flags &&& Gzip.FHCRC = Gzip.FHCRC <;>
  simp only [hfe, hfn, hfc, hfh, if_true, if_false, ite_true, ite_false,
    List.nil_append, List.append_nil, List.append_assoc, List.singleton_append,
    List.cons_append, read_le_u16_pack, hmod, List.take_left, List.drop_left,
    Gzip.read_strz_append name hname, Gzip.read_strz_append comment hcomment,
    read_le_u16_cons]

/-- C8: the gzip header reader reads a fixed 10 bytes (too few bytes or a
bad signature/method is a fatal error) and then reads the optional
sections driven by the flag byte in exactly the order FEXTRA (2-byte
little-endian length then payload), FNAME (zero-terminated), FCOMMENT
(zero-terminated), FHCRC (2 bytes). -/
theorem claim8_gzip_header_parse :
    (∀ s : List Nat, s.length < 10 →
      Gzip.GZip.readHeader s = .error "Too few data to be a valid gzip format.") ∧
    (∀ s : List Nat, 10 ≤ s.length → (s.getD 0 0 ≠ 0x1f ∨ s.getD 1 0 ≠ 0x8b) →
      Gzip.GZip.readHeader s = .error "Invalid gzip signature") ∧
    (∀ s : List Nat, 10 ≤ s.length → s.getD 0 0 = 0x1f → s.getD 1 0 = 0x8b →
      s.getD 2 0 ≠ 8 →
      Gzip.GZip.readHeader s = .error "Unsupported compression method") ∧
    (∀ (flags m0 m1 m2 m3 xfl osb : Nat) (tail : List Nat), ∃ g : Gzip.GZip,
      Gzip.GZip.readHeader
        (0x1f :: 0x8b :: 8 :: flags :: m0 :: m1 :: m2 :: m3 :: xfl :: osb :: tail) =
        .ok (g, tail) ∧ g.flags = flags ∧ g.compression = 8) ∧
    (∀ (g : Gzip.GZip) (xlen : Nat) (xpayload name comment : List Nat)
       (h0 h1 : Nat) (rest : List Nat),
      xpayload.length = xlen → xlen < 2 ^ 16 →
      (∀ b ∈ name, b ≠ 0) → (∀ b ∈ comment, b ≠ 0) →
      Gzip.GZip.readHeaderExtra g
        ((if g.flags &&& Gzip.FEXTRA = Gzip.FEXTRA then pack_u16_le xlen ++ xpayload else []) ++
         ((if g.flags &&& Gzip.FNAME = Gzip.FNAME then name ++ [0] else []) ++
          ((if g.flags &&& Gzip.FCOMMENT = Gzip.FCOMMENT then comment ++ [0] else []) ++
           ((if g.flags &&& Gzip.FHCRC = Gzip.FHCRC then [h0, h1] else []) ++ rest)))) =
      ({ g with
          xfield_len := if g.flags &&& Gzip.FEXTRA = Gzip.FEXTRA then some xlen else g.xfield_len,
          xfield := if g.flags &&& Gzip.FEXTRA = Gzip.FEXTRA then some xpayload else g.xfield,
          filename := if g.flags &&& Gzip.FNAME = Gzip.FNAME then some name else g.filename,
          comment := if g.flags &&& Gzip.FCOMMENT = Gzip.FCOMMENT then some comment else g.comment,
          header_crc := if g.flags &&& Gzip.FHCRC = Gzip.FHCRC then
            some (unpack_u16_le [h0, h1] 0) else g.header_crc },
       rest)) := by
  refine ⟨readHeader_short, readHeader_bad_signature, readHeader_bad_method, ?_, ?_⟩
  · intro flags m0 m1 m2 m3 xfl osb tail
    exact ⟨_, readHeader_fixed flags m0 m1 m2 m3 xfl osb tail, rfl, rfl⟩
  · intro g xlen xpayload name comment h0 h1 rest hx hxlen hname hcomment
    exact readHeaderExtra_sections g xlen xpayload name comment h0 h1 rest
      hx hxlen hname hcomment

/-- C8 witness: the parse theorem applied to a concrete stream with all
four optional sections present (flags = FHCRC|FEXTRA|FNAME|FCOMMENT = 30,
extra payload [1,2], name "a", comment "b", header CRC bytes [5,6]) and
to the failure cases. -/
theorem claim8_witness :
    Gzip.GZip.readHeader [0x1f, 0x8b] = .error "Too few data to be a valid gzip format." ∧
    Gzip.GZip.readHeader [9, 9, 8, 0, 0, 0, 0, 0, 0, 0] = .error "Invalid gzip signature" ∧
    Gzip.GZip.readHeader [0x1f, 0x8b, 7, 0, 0, 0, 0, 0, 0, 0] = .error "Unsupported compression method" ∧
    (Gzip.GZip.readHeaderExtra { Gzip.GZip.new with flags := 30 }
        ((pack_u16_le 2 ++ [1, 2]) ++ (([97] ++ [0]) ++ (([98] ++ [0]) ++ ([5, 6] ++ [7, 7])))) =
      ({ Gzip.GZip.new with
          flags := 30, xfield_len := some 2, xfield := some [1, 2],
          filename := some [97], comment := some [98],
          header_crc := some (unpack_u16_le [5, 6] 0) },
       [7, 7])) := by
  refine ⟨claim8_gzip_header_parse.1 [0x1f, 0x8b] (by decide),
    claim8_gzip_header_parse.2.1 [9, 9, 8, 0, 0, 0, 0, 0, 0, 0] (by decide) (by decide),
    claim8_gzip_header_parse.2.2.1 [0x1f, 0x8b, 7, 0, 0, 0, 0, 0, 0, 0] (by decide)
      (by decide) (by decide) (by decide), ?_⟩
  have h := claim8_gzip_header_parse.2.2.2.2 { Gzip.GZip.new with flags := 30 }
    2 [1, 2] [97] [98] 5 6 [7, 7] (by decide) (by decide)
    (by intro b hb; simp at hb; omega) (by intro b hb; simp at hb; omega)
  have hsections :
      ((if (30 : Nat) &&& Gzip.FEXTRA = Gzip.FEXTRA then pack_u16_le 2 ++ [1, 2] else []) ++
       ((if (30 : Nat) &&& Gzip.FNAME = Gzip.FNAME then [97] ++ [0] else []) ++
        ((if (30 : Nat) &&& Gzip.FCOMMENT = Gzip.FCOMMENT then [98] ++ [0] else []) ++
         ((if (30 : Nat) &&& Gzip.FHCRC = Gzip.FHCRC then [5, 6] else []) ++ [7, 7])))) =
      ((pack_u16_le 2 ++ [1, 2]) ++ (([97] ++ [0]) ++ (([98] ++ [0]) ++ ([5, 6] ++ [7, 7])))) := by
    decide
  rw [hsections] at h
  rw [h]
  decide

/-! ### C7: Inflator.decompress_read drain-first semantics -/

/-- C7: each `decompress_read` call first drains buffered decompressed
bytes: when `out_offset - out_begin > 0` it copies
`min(|output_buf|, available)` bytes out of the ring and returns their
count with every other component of the state — in particular the engine
state, the input cursors and the unread input stream — untouched, so the
engine is never run on that path; the engine can only run on the
remaining path, where the ring is empty.  And once the engine has
signalled DONE (`decomp_done` latched) and the ring is drained, the call
returns 0 and leaves the state unchanged, so every subsequent call
returns 0 as well. -/
theorem claim7_decompress_read_drain {σ : Type} (step : Deflate.InflateStep σ)
    (st : Deflate.InflatorSt σ) (reads : List (List Nat))
    (output_buf_len fuel : Nat) (hfuel : 0 < fuel) :
    (0 < st.out_offset - st.out_begin →
      Deflate.Inflator.decompress_read step fuel st reads output_buf_len =
        some (.ok ((st.out_buf.drop st.out_begin).take
            (min output_buf_len (st.out_offset - st.out_begin))),
          { st with
              out_begin := st.out_begin +
                min output_buf_len (st.out_offset - st.out_begin) }, reads)) ∧
    (st.out_offset - st.out_begin = 0 → st.decomp_done = true →
      Deflate.Inflator.decompress_read step fuel st reads output_buf_len =
        some (.ok [], st, reads)) := by
  obtain ⟨n, rfl⟩ : ∃ n, fuel = n + 1 := ⟨fuel - 1, by omega⟩
  constructor
  · intro hav
    unfold Deflate.Inflator.decompress_read
    rw [if_pos hav]
  · intro hav hdone
    unfold Deflate.Inflator.decompress_read
    rw [if_neg (by omega), if_pos hdone]

/-- Trivial engine used by the C7 witness: consumes nothing, produces
nothing, reports DONE. -/
def stepW : Deflate.InflateStep Unit := fun _ _ _ _ => ⟨(), 0, [], .DONE⟩

/-- C7 witness state: two cached bytes left in the ring. -/
def stDrainW : Deflate.InflatorSt Unit where
  engine := ()
  in_buf := [1, 2]
  in_offset := 1
  in_buf_total := 2
  out_buf := [10, 20, 30]
  out_begin := 0
  out_offset := 2
  decomp_done := false

/-- C7 witness state: DONE signalled and ring fully drained. -/
def stDoneW : Deflate.InflatorSt Unit where
  engine := ()
  in_buf := []
  in_offset := 0
  in_buf_total := 0
  out_buf := [10, 20, 30]
  out_begin := 2
  out_offset := 2
  decomp_done := true

/-- C7 witness: `claim7_decompress_read_drain` applied at concrete
states: draining returns the buffered byte without running the engine,
and a drained DONE state returns 0 with nothing changed. -/
theorem claim7_witness :
    Deflate.Inflator.decompress_read stepW 1 stDrainW [] 1 =
      some (.ok [10], { stDrainW with out_begin := 1 }, []) ∧
    Deflate.Inflator.decompress_read stepW 1 stDoneW [] 1 =
      some (.ok [], stDoneW, []) := by
  constructor
  · have h := (claim7_decompress_read_drain stepW stDrainW [] 1 1 (by decide)).1
      (by decide)
    rw [h]
    simp [stDrainW]
  · exact (claim7_decompress_read_drain stepW stDoneW [] 1 1 (by decide)).2
      (by decide) rfl

/-! ### C1: gzip round-trip -/

lemma decompress_pipe_roundtrip (infl : Gzip.InflateEngine) (g : Gzip.GZip)
    (X D : List Nat) (file_size : Nat) (hg : g.cmp_crc32 = 0)
    (hinfl : infl (D ++ (pack_u32_le (Gzip.update_crc 0 X 0 X.length) ++
        pack_u32_le file_size)) =
      (X, pack_u32_le (Gzip.update_crc 0 X 0 X.length) ++ pack_u32_le file_size)) :
    ∃ g2, Gzip.GZip.decompress_pipe_model infl g
      (D ++ (pack_u32_le (Gzip.update_crc 0 X 0 X.length) ++
        pack_u32_le file_size)) = .ok (X, [], g2) := by
  have hclt : Gzip.update_crc 0 X 0 X.length < 2 ^ 32 :=
    Gzip.update_crc_lt 0 X 0 X.length (by norm_num)
  have htrailer_len : (pack_u32_le (Gzip.update_crc 0 X 0 X.length) ++
      pack_u32_le file_size).length = 8 := by
    simp [pack_u32_le]
  have htake8 : (pack_u32_le (Gzip.update_crc 0 X 0 X.length) ++
      pack_u32_le file_size).take 8 =
      pack_u32_le (Gzip.update_crc 0 X 0 X.length) ++ pack_u32_le file_size := by
    rw [← htrailer_len, List.take_length]
  have hdrop8 : (pack_u32_le (Gzip.update_crc 0 X 0 X.length) ++
      pack_u32_le file_size).drop 8 = [] := by
    rw [← htrailer_len, List.drop_length]
  simp only [Gzip.GZip.decompress_pipe_model, hinfl, Gzip.GZip.readEndSection,
    Gzip.GZip.checkCrc, Gzip.END_LENGTH, htrailer_len, htake8, hdrop8, hg,
    unpack_pack_u32, Nat.mod_eq_of_lt hclt, lt_self_iff_false, ne_self_iff_false,
    if_false, ite_false, min_self, ne_eq, not_false_eq_true, ite_true]
  exact ⟨_, rfl⟩

/-- C1: gzip-decompressing the gzip-compression of any input `X` (at any
level in [0,9] and any buffer size factor ≥ 5) recovers exactly `X`, with
the trailer CRC verifying successfully (the `.ok` result passes through
`readEndSection` and `checkCrc`) and no extra bytes.  The DEFLATE engine
pair is abstract, constrained only by the spec's engine contract: the
decompressor inverts the compressor and consumes exactly the DEFLATE
stream, leaving the rest of the input unconsumed. -/
theorem claim1_gzip_roundtrip (defl : Gzip.DeflateEngine) (infl : Gzip.InflateEngine)
    (X file_name : List Nat) (mtime file_size compress_level buf_size_factor : Nat)
    (hlevel : compress_level ≤ 9) (hfactor : 5 ≤ buf_size_factor)
    (hname : ∀ b ∈ file_name, b ≠ 0)
    (hengine : ∀ r, infl (defl X ++ r) = (X, r)) :
    Gzip.gzip_decompress infl
      (Gzip.gzip_compress defl file_name mtime file_size X) = .ok (X, []) := by
  obtain ⟨m0, m1, m2, m3, hm⟩ : ∃ a b c d, pack_u32_le mtime = [a, b, c, d] :=
    ⟨_, _, _, _, rfl⟩
  by_cases hn : file_name = []
  · subst hn
    have hcomp : Gzip.gzip_compress defl [] mtime file_size X =
        0x1f :: 0x8b :: 8 :: 0 :: m0 :: m1 :: m2 :: m3 :: 0 :: 0 ::
          (defl X ++ (pack_u32_le (Gzip.update_crc 0 X 0 X.length) ++
            pack_u32_le file_size)) := by
      show (Gzip.GZip.compress_init [] mtime file_size).2 ++
          (Gzip.GZip.compress_pipe_model defl
            (Gzip.GZip.compress_init [] mtime file_size).1 X).2 = _
      simp only [Gzip.GZip.compress_init, Gzip.GZip.compress_pipe_model,
        Gzip.GZip.writeHeader, Gzip.GZip.writeHeaderExtra,
        Gzip.GZip.writeEndSection, Gzip.GZip.new, hm]
      simp [Gzip.FEXTRA, Gzip.FNAME, Gzip.FCOMMENT, Gzip.FHCRC,
        Gzip.MAGIC1, Gzip.MAGIC2, Gzip.METHOD_DEFLATE]
    rw [hcomp]
    unfold Gzip.gzip_decompress
    rw [readHeader_fixed]
    have hextra : Gzip.GZip.readHeaderExtra
        { Gzip.GZip.new with
            id1 := 0x1f, id2 := 0x8b, compression := 8, flags := 0,
            mtime := unpack_u32_le [0x1f, 0x8b, 8, 0, m0, m1, m2, m3, 0, 0] 4,
            xflags := 0, os := 0 }
        (defl X ++ (pack_u32_le (Gzip.update_crc 0 X 0 X.length) ++
          pack_u32_le file_size)) =
        ({ Gzip.GZip.new with
            id1 := 0x1f, id2 := 0x8b, compression := 8, flags := 0,
            mtime := unpack_u32_le [0x1f, 0x8b, 8, 0, m0, m1, m2, m3, 0, 0] 4,
            xflags := 0, os := 0 },
         defl X ++ (pack_u32_le (Gzip.update_crc 0 X 0 X.length) ++
          pack_u32_le file_size)) := by
      unfold Gzip.GZip.readHeaderExtra
      simp [Gzip.FEXTRA, Gzip.FNAME, Gzip.FCOMMENT, Gzip.FHCRC]
    simp only [hextra]
    obtain ⟨g2, hpipe⟩ := decompress_pipe_roundtrip infl
      { Gzip.GZip.new with
          id1 := 0x1f, id2 := 0x8b, compression := 8, flags := 0,
          mtime := unpack_u32_le [0x1f, 0x8b, 8, 0, m0, m1, m2, m3, 0, 0] 4,
          xflags := 0, os := 0 }
      X (defl X) file_size rfl (hengine _)
    simp only [hpipe]
  · have hlen : 0 < file_name.length := List.length_pos.mpr hn
    have hcomp : Gzip.gzip_compress defl file_name mtime file_size X =
        0x1f :: 0x8b :: 8 :: 8 :: m0 :: m1 :: m2 :: m3 :: 0 :: 0 ::
          (file_name ++ 0 ::
            (defl X ++ (pack_u32_le (Gzip.update_crc 0 X 0 X.length) ++
              pack_u32_le file_size))) := by
      show (Gzip.GZip.compress_init file_name mtime file_size).2 ++
          (Gzip.GZip.compress_pipe_model defl
            (Gzip.GZip.compress_init file_name mtime file_size).1 X).2 = _
      simp only [Gzip.GZip.compress_init, Gzip.GZip.compress_pipe_model,
        Gzip.GZip.writeHeader, Gzip.GZip.writeHeaderExtra,
        Gzip.GZip.writeEndSection, Gzip.GZip.new, Gzip.to_strz, hm, hlen]
      simp [Gzip.FEXTRA, Gzip.FNAME, Gzip.FCOMMENT, Gzip.FHCRC,
        Gzip.MAGIC1, Gzip.MAGIC2, Gzip.METHOD_DEFLATE, hlen]
    rw [hcomp]
    unfold Gzip.gzip_decompress
    rw [readHeader_fixed]
    have hextra : Gzip.GZip.readHeaderExtra
        { Gzip.GZip.new with
            id1 := 0x1f, id2 := 0x8b, compression := 8, flags := 8,
            mtime := unpack_u32_le [0x1f, 0x8b, 8, 8, m0, m1, m2, m3, 0, 0] 4,
            xflags := 0, os := 0 }
        (file_name ++ 0 ::
          (defl X ++ (pack_u32_le (Gzip.update_crc 0 X 0 X.length) ++
            pack_u32_le file_size))) =
        ({ Gzip.GZip.new with
            id1 := 0x1f, id2 := 0x8b, compression := 8, flags := 8,
            mtime := unpack_u32_le [0x1f, 0x8b, 8, 8, m0, m1, m2, m3, 0, 0] 4,
            xflags := 0, os := 0, filename := some file_name },
         defl X ++ (pack_u32_le (Gzip.update_crc 0 X 0 X.length) ++
          pack_u32_le file_size)) := by
      unfold Gzip.GZip.readHeaderExtra
      simp [Gzip.FEXTRA, Gzip.FNAME, Gzip.FCOMMENT, Gzip.FHCRC,
        Gzip.read_strz_append file_name hname]
    simp only [hextra]
    obtain ⟨g2, hpipe⟩ := decompress_pipe_roundtrip infl
      { Gzip.GZip.new with
          id1 := 0x1f, id2 := 0x8b, compression := 8, flags := 8,
          mtime := unpack_u32_le [0x1f, 0x8b, 8, 8, m0, m1, m2, m3, 0, 0] 4,
          xflags := 0, os := 0, filename := some file_name }
      X (defl X) file_size rfl (hengine _)
    simp only [hpipe]

/-- C1 witness: the round-trip theorem at `X = [65, 66]`, an empty
filename, level 6 and factor 5, with a concrete engine pair satisfying
the contract (the identity compressor and the take/drop splitter). -/
theorem claim1_witness :
    (6 : Nat) ≤ 9 ∧ (5 : Nat) ≤ 5 ∧
    Gzip.gzip_decompress (fun s => (s.take 2, s.drop 2))
      (Gzip.gzip_compress (fun x => x) [] 0 2 [65, 66]) = .ok ([65, 66], []) :=
  ⟨by decide, by decide,
    claim1_gzip_roundtrip (fun x => x) (fun s => (s.take 2, s.drop 2))
      [65, 66] [] 0 2 6 5 (by decide) (by decide) (by intro b hb; cases hb)
      (by intro r; simp)⟩

end RustyZip
